import Mathlib

/-!
Verification development for the glyph-atlas construction engine of zutty
(src/font.cc and src/fontpack.cc).  The C++ code is shallowly embedded:
pure helper computations become Lean functions on `Nat`/`Int`, the atlas
buffer becomes a byte function `Nat → Nat`, unsigned 32-bit wraparound is
made explicit through `usub`, fallible paths return `Except String`.
FreeType and fontconfig are external collaborators: an opened face is
modelled by its observable data (its charcode enumeration as a `List Nat`,
a rasterization oracle `Nat → GlyphOutcome`, and its metrics), exactly the
data the source consumes.
-/

/-- Number of bytes per atlas pixel (RGBA), `bytes_per_pixel` in font.cc. -/
def bytes_per_pixel : Nat := 4

/-- Modulus of C++ `unsigned int` arithmetic. -/
def U32 : Nat := 4294967296

/-- C++ unsigned subtraction `a - b` on `unsigned int` operands that are
below `2^32`: wraps around instead of clipping at zero. -/
def usub (a b : Nat) : Nat := (U32 + a - b) % U32

/-- FreeType constant `FT_PIXEL_MODE_MONO`. -/
def FT_PIXEL_MODE_MONO : Nat := 1

/-- FreeType constant `FT_PIXEL_MODE_GRAY`. -/
def FT_PIXEL_MODE_GRAY : Nat := 2

/-- FreeType constant `FT_PIXEL_MODE_LCD`. -/
def FT_PIXEL_MODE_LCD : Nat := 5

/-- Modelled from the spec: the designated "glyph not found" marker tested
by `Font::isLoadableChar`.  Its declaration lives in font.h, which is not
part of the sources under verification; no theorem below depends on its
exact numeric value, only on it being one fixed code point. -/
def Missing_Glyph_Marker : Nat := 65535

/-- Modelled from the spec: the Unicode replacement character U+FFFD tested
by `Font::isLoadableChar` (declared in font.h, not in the sources). -/
def Unicode_Replacement_Character : Nat := 65533

/-- Embedding of `Font::isLoadableChar` (font.cc lines 79-89).  `wcw` is the
external libc `wcwidth` classification, passed as a parameter. -/
def isLoadableChar (wcw : Nat → Int) (dwidth : Bool) (c : Nat) : Bool :=
  if c = Missing_Glyph_Marker then true
  else if c = Unicode_Replacement_Character then true
  else (dwidth && decide (wcw c = 2)) || (!dwidth && decide (wcw c < 2))

/-- The atlas geometry loop of `Font::load` (font.cc lines 230-236):
starting from a candidate grid `(nx, ny)`, repeatedly increment `nx` when
`px*nx < py*ny` and otherwise `ny`, until `nx*ny ≥ n`.  The C++ loop has no
fuel; `none` models the (degenerate, e.g. `py = 0`) diverging runs, and
`planLoop_total` below shows the fuel used by `planAtlas` is never
exhausted when `px, py ≥ 1`. -/
def planLoop (px py n : Nat) : Nat → Nat → Nat → Option (Nat × Nat)
  | 0, nx, ny => if nx * ny < n then none else some (nx, ny)
  | fuel + 1, nx, ny =>
    if nx * ny < n then
      if px * nx < py * ny then planLoop px py n fuel (nx + 1) ny
      else planLoop px py n fuel nx (ny + 1)
    else some (nx, ny)

/-- Structural integer square root: the largest `m ≤ k` with `m*m ≤ N`.
Used (at `k = N`) to model the C `sqrt` of `Font::load` with exact
arithmetic; `isqrt_eq_sqrt` identifies it with `Nat.sqrt`. -/
def isqrtAux (N : Nat) : Nat → Nat
  | 0 => 0
  | k + 1 => if (k + 1) * (k + 1) ≤ N then k + 1 else isqrtAux N k

/-- Integer square root `⌊√N⌋`, kernel-reducible. -/
def isqrt (N : Nat) : Nat := isqrtAux N N

theorem isqrtAux_eq (N : Nat) : ∀ k, Nat.sqrt N ≤ k → isqrtAux N k = Nat.sqrt N := by
  intro k
  induction k with
  | zero =>
    intro h
    simp [isqrtAux]
    omega
  | succ k ih =>
    intro h
    by_cases hk : (k + 1) * (k + 1) ≤ N
    · have h2 : k + 1 ≤ Nat.sqrt N := Nat.le_sqrt.mpr hk
      simp [isqrtAux, hk]
      omega
    · have h3 : Nat.sqrt N * Nat.sqrt N ≤ N := Nat.sqrt_le N
      have h2 : Nat.sqrt N ≤ k := by
        rcases Nat.lt_or_ge (Nat.sqrt N) (k + 1) with hlt | hge
        · omega
        · exfalso
          exact hk (le_trans (Nat.mul_le_mul hge hge) h3)
      simp [isqrtAux, hk]
      exact ih h2

theorem isqrt_eq_sqrt (N : Nat) : isqrt N = Nat.sqrt N :=
  isqrtAux_eq N N (Nat.sqrt_le_self N)

/-- The atlas geometry planner of `Font::load` (font.cc lines 223-236).
`n = num_glyphs + 1` reserves the blank glyph; the double
`side = sqrt(n*px*py)` and the truncations `nx = side/px`, `ny = side/py`
are modelled with exact integer arithmetic (`⌊√N/d⌋ = ⌊⌊√N⌋/d⌋`). -/
def planAtlas (numGlyphs px py : Nat) : Option (Nat × Nat) :=
  let n := numGlyphs + 1
  let side := isqrt (n * px * py)
  planLoop px py n (n + 4) (side / px) (side / py)

/-- The geometry computation of `Font::load` including the single-byte
addressability check (font.cc lines 238-244). -/
def atlasGeometry (numGlyphs px py : Nat) : Except String (Nat × Nat) :=
  match planAtlas numGlyphs px py with
  | none => Except.error "planner did not converge"
  | some (nx, ny) =>
    if 255 < nx ∨ 255 < ny then Except.error "Impossible atlas geometry"
    else Except.ok (nx, ny)

/-- Tests whether an `Except` result is the error case. -/
def isErr {α : Type} (r : Except String α) : Bool :=
  match r with
  | Except.error _ => true
  | Except.ok _ => false

theorem planLoop_succ (px py n fuel nx ny : Nat) :
    planLoop px py n (fuel + 1) nx ny =
      if nx * ny < n then
        if px * nx < py * ny then planLoop px py n fuel (nx + 1) ny
        else planLoop px py n fuel nx (ny + 1)
      else some (nx, ny) := rfl

theorem planLoop_exit (px py n nx ny : Nat) (h : ¬ nx * ny < n) :
    ∀ fuel, (planLoop px py n fuel nx ny).isSome = true := by
  intro fuel
  cases fuel with
  | zero => simp [planLoop, h]
  | succ f => rw [planLoop_succ, if_neg h]; rfl

theorem planLoop_step (px py n fuel nx ny : Nat) (h : nx * ny < n) :
    planLoop px py n (fuel + 1) nx ny =
      if px * nx < py * ny then planLoop px py n fuel (nx + 1) ny
      else planLoop px py n fuel nx (ny + 1) := by
  rw [planLoop_succ, if_pos h]

theorem planLoop_ge (px py n : Nat) :
    ∀ fuel nx ny a b, planLoop px py n fuel nx ny = some (a, b) → n ≤ a * b := by
  intro fuel
  induction fuel with
  | zero =>
    intro nx ny a b h
    by_cases hc : nx * ny < n
    · simp [planLoop, hc] at h
    · simp only [planLoop, if_neg hc, Option.some.injEq, Prod.mk.injEq] at h
      obtain ⟨rfl, rfl⟩ := h
      omega
  | succ f ih =>
    intro nx ny a b h
    rw [planLoop_succ] at h
    by_cases hc : nx * ny < n
    · rw [if_pos hc] at h
      by_cases hb : px * nx < py * ny
      · exact ih (nx + 1) ny a b (by rwa [if_pos hb] at h)
      · exact ih nx (ny + 1) a b (by rwa [if_neg hb] at h)
    · rw [if_neg hc] at h
      simp only [Option.some.injEq, Prod.mk.injEq] at h
      obtain ⟨rfl, rfl⟩ := h
      omega

theorem nat_add_le_mul_succ (x y : Nat) :
    (x + 1) + (y + 1) ≤ (x + 1) * (y + 1) + 1 := by
  have h : (x + 1) * (y + 1) = x * y + x + y + 1 := by ring
  omega

theorem planLoop_total_aux (px py n : Nat) :
    ∀ fuel nx ny, 1 ≤ nx → 1 ≤ ny → n + 2 ≤ nx + ny + fuel →
      (planLoop px py n fuel nx ny).isSome = true := by
  intro fuel
  induction fuel with
  | zero =>
    intro nx ny h1 h2 h3
    obtain ⟨x, rfl⟩ : ∃ x, nx = x + 1 := ⟨nx - 1, by omega⟩
    obtain ⟨y, rfl⟩ : ∃ y, ny = y + 1 := ⟨ny - 1, by omega⟩
    have hge := nat_add_le_mul_succ x y
    have hc : ¬ ((x + 1) * (y + 1) < n) := by omega
    simp [planLoop, hc]
  | succ f ih =>
    intro nx ny h1 h2 h3
    rw [planLoop_succ]
    by_cases hc : nx * ny < n
    · obtain ⟨x, rfl⟩ : ∃ x, nx = x + 1 := ⟨nx - 1, by omega⟩
      obtain ⟨y, rfl⟩ : ∃ y, ny = y + 1 := ⟨ny - 1, by omega⟩
      have hge := nat_add_le_mul_succ x y
      rw [if_pos hc]
      by_cases hb : px * (x + 1) < py * (y + 1)
      · rw [if_pos hb]
        exact ih (x + 1 + 1) (y + 1) (by omega) (by omega) (by omega)
      · rw [if_neg hb]
        exact ih (x + 1) (y + 1 + 1) (by omega) (by omega) (by omega)
    · simp [hc]

theorem planLoop_total (px py n : Nat) (hpx : 1 ≤ px) (hpy : 1 ≤ py) (nx ny : Nat) :
    (planLoop px py n (n + 4) nx ny).isSome = true := by
  by_cases hc : nx * ny < n
  · rw [show n + 4 = (n + 3) + 1 from rfl, planLoop_step px py n (n + 3) nx ny hc]
    rcases Nat.eq_zero_or_pos ny with hy0 | hy1
    · subst hy0
      have hb : ¬ (px * nx < py * 0) := by
        simp
      rw [if_neg hb]
      by_cases hc2 : nx * (0 + 1) < n
      · rw [show n + 3 = (n + 2) + 1 from rfl, planLoop_step px py n (n + 2) nx (0 + 1) hc2]
        rcases Nat.eq_zero_or_pos nx with hx0 | hx1
        · subst hx0
          have hb3 : px * 0 < py * (0 + 1) := by
            simpa using hpy
          rw [if_pos hb3]
          exact planLoop_total_aux px py n (n + 2) (0 + 1) (0 + 1) (by omega) (by omega) (by omega)
        · by_cases hb3 : px * nx < py * (0 + 1)
          · rw [if_pos hb3]
            exact planLoop_total_aux px py n (n + 2) (nx + 1) (0 + 1) (by omega) (by omega) (by omega)
          · rw [if_neg hb3]
            exact planLoop_total_aux px py n (n + 2) nx (0 + 1 + 1) hx1 (by omega) (by omega)
      · exact planLoop_exit px py n nx (0 + 1) hc2 (n + 3)
    · rcases Nat.eq_zero_or_pos nx with hx0 | hx1
      · subst hx0
        have hb : px * 0 < py * ny := by
          have hpos : 0 < py * ny := Nat.mul_pos hpy hy1
          simpa using hpos
        rw [if_pos hb]
        exact planLoop_total_aux px py n (n + 3) (0 + 1) ny (by omega) hy1 (by omega)
      · by_cases hb : px * nx < py * ny
        · rw [if_pos hb]
          exact planLoop_total_aux px py n (n + 3) (nx + 1) ny (by omega) hy1 (by omega)
        · rw [if_neg hb]
          exact planLoop_total_aux px py n (n + 3) nx (ny + 1) hx1 (by omega) (by omega)
  · exact planLoop_exit px py n nx ny hc (n + 4)

set_option maxRecDepth 4000 in
/-- C2: for a non-overlay build with positive cell size, the planner
(started from `side = √((g+1)·px·py)`, `nx = side/px`, `ny = side/py` and
iterated by incrementing `nx` when `px·nx < py·ny` else `ny`) converges;
every converged result `(nx, ny)` satisfies `nx·ny ≥ g+1`; the build raises
the fatal "Impossible atlas geometry" error iff the converged `nx` or `ny`
exceeds 255; and `g+1 = 4`, `px = 10`, `py = 20` yields `(2, 2)`. -/
theorem C2_atlas_planner :
    (∀ numGlyphs px py, 1 ≤ px → 1 ≤ py → (planAtlas numGlyphs px py).isSome = true)
    ∧ (∀ numGlyphs px py nx ny, planAtlas numGlyphs px py = some (nx, ny) →
        (numGlyphs + 1 ≤ nx * ny
         ∧ (isErr (atlasGeometry numGlyphs px py) = true ↔ (255 < nx ∨ 255 < ny))))
    ∧ planAtlas 3 10 20 = some (2, 2) := by
  refine ⟨?_, ?_, by decide⟩
  · intro numGlyphs px py hpx hpy
    exact planLoop_total px py (numGlyphs + 1) hpx hpy _ _
  · intro numGlyphs px py nx ny h
    refine ⟨planLoop_ge px py (numGlyphs + 1) _ _ _ nx ny h, ?_⟩
    unfold atlasGeometry
    rw [h]
    by_cases hbig : 255 < nx ∨ 255 < ny
    · simp [hbig, isErr]
    · simp [hbig, isErr]

set_option maxRecDepth 4000 in
/-- Closed instance of `C2_atlas_planner` at the spec's example
`g + 1 = 4`, `px = 10`, `py = 20`. -/
theorem C2_atlas_planner_witness :
    (planAtlas 3 10 20).isSome = true
    ∧ (3 + 1 ≤ 2 * 2
       ∧ (isErr (atlasGeometry 3 10 20) = true ↔ (255 < 2 ∨ 255 < 2))) :=
  ⟨C2_atlas_planner.1 3 10 20 (by decide) (by decide),
   C2_atlas_planner.2.1 3 10 20 2 2 (by decide)⟩

/-- C3 (amended): `isLoadableChar` is a total function, and apart from the
two special markers (the missing-glyph marker and U+FFFD, which the source
admits under both modes before consulting `wcwidth`), no code point is
loadable in both a normal-width and a double-width build, for every
`wcwidth` classification. -/
theorem C3_loadable_exclusive :
    (∀ wcw dwidth c, isLoadableChar wcw dwidth c = true ∨ isLoadableChar wcw dwidth c = false)
    ∧ (∀ wcw c, c ≠ Missing_Glyph_Marker → c ≠ Unicode_Replacement_Character →
        ¬(isLoadableChar wcw true c = true ∧ isLoadableChar wcw false c = true)) := by
  constructor
  · intro wcw dwidth c
    cases h : isLoadableChar wcw dwidth c
    · right; rfl
    · left; rfl
  · intro wcw c h1 h2 hcontra
    obtain ⟨ht, hf⟩ := hcontra
    simp only [isLoadableChar, if_neg h1, if_neg h2] at ht hf
    simp at ht hf
    omega

/-- Fixed `wcwidth` classification used in the C3 instances. -/
def wcwC3 : Nat → Int := fun _ => 1

/-- Counterexample to C3 as stated: the Unicode replacement character
U+FFFD is loadable in both a normal-width (`dwidth` unset) and a
double-width (`dwidth` set) build — `isLoadableChar` returns `true` for it
before consulting `wcwidth` in either mode. -/
theorem C3_counterexample :
    isLoadableChar wcwC3 true 65533 = true ∧ isLoadableChar wcwC3 false 65533 = true := by
  constructor <;> rfl

/-- Closed instance of `C3_loadable_exclusive` at the ordinary code point 97. -/
theorem C3_loadable_exclusive_witness :
    ¬(isLoadableChar wcwC3 true 97 = true ∧ isLoadableChar wcwC3 false 97 = true) :=
  C3_loadable_exclusive.2 wcwC3 97 (by decide) (by decide)

/-- One rasterized glyph as delivered by FreeType: bearings, bitmap pixel
mode, dimensions, row pitch and byte data (`face->glyph` after
`FT_Load_Char`/`FT_Render_Glyph`). -/
structure Glyph where
  bitmap_left : Int
  bitmap_top : Int
  pixel_mode : Nat
  width : Nat
  rows : Nat
  pitch : Nat
  data : Nat → Nat

/-- The per-font data `Font::loadFace` reads: cell size `px, py`, the
`baseline`, the atlas column count `nx`, the `overlay` flag, and whether
`glyph_render_mode == FT_RENDER_MODE_LCD`. -/
structure FontGeom where
  px : Nat
  py : Nat
  baseline : Nat
  nx : Nat
  overlay : Bool
  renderModeLCD : Bool

/-- An atlas cell position (`AtlasPos` of font.h): column `x`, row `y`. -/
structure AtlasPos where
  x : Nat
  y : Nat
deriving DecidableEq

/-- Store one byte: `buf[i] = v`. -/
def wr (buf : Nat → Nat) (i v : Nat) : Nat → Nat :=
  fun j => if j = i then v else buf j

/-- The three RGB stores of one destination pixel (the fourth byte is
skipped by the source: `atl_dst_row++` without a store). -/
def write3 (buf : Nat → Nat) (base r g b : Nat) : Nat → Nat :=
  wr (wr (wr buf base r) (base + 1) g) (base + 2) b

/-- The four zero stores of one pixel of the overlay-clear loop
(font.cc lines 441-446). -/
def write4z (buf : Nat → Nat) (base : Nat) : Nat → Nat :=
  wr (wr (wr (wr buf base 0) (base + 1) 0) (base + 2) 0) (base + 3) 0

theorem wr_eval (buf : Nat → Nat) (i v j : Nat) :
    wr buf i v j = if j = i then v else buf j := rfl

theorem write3_eval (buf : Nat → Nat) (base r g b i : Nat) :
    write3 buf base r g b i =
      if i = base then r
      else if i = base + 1 then g
      else if i = base + 2 then b
      else buf i := by
  unfold write3
  rw [wr_eval, wr_eval, wr_eval]
  by_cases h2 : i = base + 2 <;> by_cases h1 : i = base + 1 <;> by_cases h0 : i = base <;>
    simp [h0, h1, h2] <;> omega

theorem write4z_eval (buf : Nat → Nat) (base i : Nat) :
    write4z buf base i = if base ≤ i ∧ i < base + 4 then 0 else buf i := by
  unfold write4z
  rw [wr_eval, wr_eval, wr_eval, wr_eval]
  by_cases h3 : i = base + 3 <;> by_cases h2 : i = base + 2 <;>
    by_cases h1 : i = base + 1 <;> by_cases h0 : i = base <;>
      by_cases hr : base ≤ i ∧ i < base + 4 <;> simp [h0, h1, h2, h3, hr] <;> omega

/-- One row of per-pixel RGB stores at `base0 + 4*k` for `k < bw`, with the
pixel values given by `vals`. -/
def writeRow (vals : Nat → Nat × Nat × Nat) (base0 bw : Nat) (buf : Nat → Nat) : Nat → Nat :=
  (List.range bw).foldl
    (fun b k => write3 b (base0 + 4 * k) (vals k).1 (vals k).2.1 (vals k).2.2) buf

/-- The doubly nested blit loop: row `j < bh` starts at `writeOff + 4*j*W`
where `W = nx*px` is the atlas pixel-row width. -/
def writeGrid (vals : Nat → Nat → Nat × Nat × Nat) (writeOff W bw bh : Nat)
    (buf : Nat → Nat) : Nat → Nat :=
  (List.range bh).foldl
    (fun b j => writeRow (vals j) (writeOff + 4 * (j * W)) bw b) buf

/-- One row of the overlay-clear loop: 4-byte zero stores at `base0 + 4*k`. -/
def clearRow (base0 bw : Nat) (buf : Nat → Nat) : Nat → Nat :=
  (List.range bw).foldl (fun b k => write4z b (base0 + 4 * k)) buf

/-- The overlay-clear loop of `Font::loadFace` (font.cc lines 436-448):
rows `j < bh` of `bw` pixels, 4 zero bytes each, starting at the glyph
cell origin `glyphOff`. -/
def clearGlyphArea (glyphOff W bw bh : Nat) (buf : Nat → Nat) : Nat → Nat :=
  (List.range bh).foldl (fun b j => clearRow (glyphOff + 4 * (j * W)) bw b) buf

theorem writeRow_succ (vals : Nat → Nat × Nat × Nat) (base0 bw : Nat) (buf : Nat → Nat) :
    writeRow vals base0 (bw + 1) buf =
      write3 (writeRow vals base0 bw buf) (base0 + 4 * bw)
        (vals bw).1 (vals bw).2.1 (vals bw).2.2 := by
  unfold writeRow
  rw [List.range_succ, List.foldl_append]
  rfl

theorem writeRow_val (vals : Nat → Nat × Nat × Nat) (base0 : Nat) (buf : Nat → Nat) :
    ∀ bw k, k < bw →
      writeRow vals base0 bw buf (base0 + 4 * k) = (vals k).1
      ∧ writeRow vals base0 bw buf (base0 + 4 * k + 1) = (vals k).2.1
      ∧ writeRow vals base0 bw buf (base0 + 4 * k + 2) = (vals k).2.2 := by
  intro bw
  induction bw with
  | zero => intro k hk; omega
  | succ n ih =>
    intro k hk
    rw [writeRow_succ]
    rcases Nat.lt_succ_iff_lt_or_eq.mp hk with h | h
    · have e0 : base0 + 4 * k ≠ base0 + 4 * n := by omega
      have e0a : base0 + 4 * k ≠ base0 + 4 * n + 1 := by omega
      have e0b : base0 + 4 * k ≠ base0 + 4 * n + 2 := by omega
      have e1 : base0 + 4 * k + 1 ≠ base0 + 4 * n := by omega
      have e1a : base0 + 4 * k + 1 ≠ base0 + 4 * n + 1 := by omega
      have e1b : base0 + 4 * k + 1 ≠ base0 + 4 * n + 2 := by omega
      have e2 : base0 + 4 * k + 2 ≠ base0 + 4 * n := by omega
      have e2a : base0 + 4 * k + 2 ≠ base0 + 4 * n + 1 := by omega
      have e2b : base0 + 4 * k + 2 ≠ base0 + 4 * n + 2 := by omega
      rw [write3_eval, write3_eval, write3_eval]
      simp only [if_neg e0, if_neg e0a, if_neg e0b, if_neg e1, if_neg e1a, if_neg e1b,
        if_neg e2, if_neg e2a, if_neg e2b]
      exact ih k h
    · subst h
      rw [write3_eval, write3_eval, write3_eval]
      have u1 : base0 + 4 * k + 1 ≠ base0 + 4 * k := by omega
      have u2 : base0 + 4 * k + 2 ≠ base0 + 4 * k := by omega
      have u3 : base0 + 4 * k + 2 ≠ base0 + 4 * k + 1 := by omega
      simp [u1, u2, u3]

theorem writeRow_untouched (vals : Nat → Nat × Nat × Nat) (base0 : Nat) (buf : Nat → Nat) :
    ∀ bw i, (∀ k, k < bw →
        i ≠ base0 + 4 * k ∧ i ≠ base0 + 4 * k + 1 ∧ i ≠ base0 + 4 * k + 2) →
      writeRow vals base0 bw buf i = buf i := by
  intro bw
  induction bw with
  | zero => intro i _; rfl
  | succ n ih =>
    intro i h
    rw [writeRow_succ, write3_eval]
    obtain ⟨h0, h1, h2⟩ := h n (by omega)
    simp only [if_neg h0, if_neg h1, if_neg h2]
    exact ih i (fun k hk => h k (by omega))

theorem writeGrid_succ (vals : Nat → Nat → Nat × Nat × Nat) (writeOff W bw bh : Nat)
    (buf : Nat → Nat) :
    writeGrid vals writeOff W bw (bh + 1) buf =
      writeRow (vals bh) (writeOff + 4 * (bh * W)) bw
        (writeGrid vals writeOff W bw bh buf) := by
  unfold writeGrid
  rw [List.range_succ, List.foldl_append]
  rfl

theorem row_index_lt (j n k W : Nat) (hj : j < n) (hk : k < W) :
    j * W + k < n * W := by
  have h1 : j * W + k < (j + 1) * W := by
    have : (j + 1) * W = j * W + W := by ring
    omega
  have h2 : (j + 1) * W ≤ n * W := Nat.mul_le_mul_right W hj
  omega

theorem writeGrid_val (vals : Nat → Nat → Nat × Nat × Nat) (writeOff W : Nat)
    (buf : Nat → Nat) (bw : Nat) (hbw : bw ≤ W) :
    ∀ bh j k, j < bh → k < bw →
      writeGrid vals writeOff W bw bh buf (writeOff + 4 * (j * W) + 4 * k) = (vals j k).1
      ∧ writeGrid vals writeOff W bw bh buf (writeOff + 4 * (j * W) + 4 * k + 1) = (vals j k).2.1
      ∧ writeGrid vals writeOff W bw bh buf (writeOff + 4 * (j * W) + 4 * k + 2) = (vals j k).2.2 := by
  intro bh
  induction bh with
  | zero => intro j k hj hk; omega
  | succ n ih =>
    intro j k hj hk
    rw [writeGrid_succ]
    rcases Nat.lt_succ_iff_lt_or_eq.mp hj with h | h
    · have hlt : j * W + k < n * W := row_index_lt j n k W h (by omega)
      have hsep : ∀ k2, k2 < bw →
          (writeOff + 4 * (j * W) + 4 * k ≠ writeOff + 4 * (n * W) + 4 * k2
           ∧ writeOff + 4 * (j * W) + 4 * k ≠ writeOff + 4 * (n * W) + 4 * k2 + 1
           ∧ writeOff + 4 * (j * W) + 4 * k ≠ writeOff + 4 * (n * W) + 4 * k2 + 2) := by
        intro k2 hk2
        omega
      have hsep1 : ∀ k2, k2 < bw →
          (writeOff + 4 * (j * W) + 4 * k + 1 ≠ writeOff + 4 * (n * W) + 4 * k2
           ∧ writeOff + 4 * (j * W) + 4 * k + 1 ≠ writeOff + 4 * (n * W) + 4 * k2 + 1
           ∧ writeOff + 4 * (j * W) + 4 * k + 1 ≠ writeOff + 4 * (n * W) + 4 * k2 + 2) := by
        intro k2 hk2
        omega
      have hsep2 : ∀ k2, k2 < bw →
          (writeOff + 4 * (j * W) + 4 * k + 2 ≠ writeOff + 4 * (n * W) + 4 * k2
           ∧ writeOff + 4 * (j * W) + 4 * k + 2 ≠ writeOff + 4 * (n * W) + 4 * k2 + 1
           ∧ writeOff + 4 * (j * W) + 4 * k + 2 ≠ writeOff + 4 * (n * W) + 4 * k2 + 2) := by
        intro k2 hk2
        omega
      rw [writeRow_untouched _ _ _ bw _ hsep, writeRow_untouched _ _ _ bw _ hsep1,
        writeRow_untouched _ _ _ bw _ hsep2]
      exact ih j k h hk
    · subst h
      exact writeRow_val (vals j) (writeOff + 4 * (j * W)) _ bw k hk

theorem writeGrid_untouched (vals : Nat → Nat → Nat × Nat × Nat) (writeOff W bw : Nat)
    (buf : Nat → Nat) :
    ∀ bh i, (∀ j k, j < bh → k < bw →
        i ≠ writeOff + 4 * (j * W) + 4 * k
        ∧ i ≠ writeOff + 4 * (j * W) + 4 * k + 1
        ∧ i ≠ writeOff + 4 * (j * W) + 4 * k + 2) →
      writeGrid vals writeOff W bw bh buf i = buf i := by
  intro bh
  induction bh with
  | zero => intro i _; rfl
  | succ n ih =>
    intro i h
    rw [writeGrid_succ]
    rw [writeRow_untouched _ _ _ bw i (fun k hk => h n k (by omega) hk)]
    exact ih i (fun j k hj hk => h j k (by omega) hk)

theorem four_mul_add_ne (a b c : Nat) (hc : c < 3) : 4 * a + 3 ≠ 4 * b + c := by
  omega

theorem writeGrid_byte3 (vals : Nat → Nat → Nat × Nat × Nat) (writeOff W bw bh : Nat)
    (buf : Nat → Nat) (j k : Nat) :
    writeGrid vals writeOff W bw bh buf (writeOff + 4 * (j * W) + 4 * k + 3)
      = buf (writeOff + 4 * (j * W) + 4 * k + 3) := by
  apply writeGrid_untouched
  intro j2 k2 _ _
  refine ⟨?_, ?_, ?_⟩ <;> omega

theorem clearRow_succ (base0 bw : Nat) (buf : Nat → Nat) :
    clearRow base0 (bw + 1) buf = write4z (clearRow base0 bw buf) (base0 + 4 * bw) := by
  unfold clearRow
  rw [List.range_succ, List.foldl_append]
  rfl

theorem clearRow_val (base0 : Nat) (buf : Nat → Nat) :
    ∀ bw k c, k < bw → c < 4 → clearRow base0 bw buf (base0 + 4 * k + c) = 0 := by
  intro bw
  induction bw with
  | zero => intro k c hk _; omega
  | succ n ih =>
    intro k c hk hc
    rw [clearRow_succ, write4z_eval]
    rcases Nat.lt_succ_iff_lt_or_eq.mp hk with h | h
    · have hne : ¬ (base0 + 4 * n ≤ base0 + 4 * k + c ∧ base0 + 4 * k + c < base0 + 4 * n + 4) := by
        omega
      rw [if_neg hne]
      exact ih k c h hc
    · subst h
      have hyes : base0 + 4 * k ≤ base0 + 4 * k + c ∧ base0 + 4 * k + c < base0 + 4 * k + 4 := by
        omega
      rw [if_pos hyes]

theorem clearRow_untouched (base0 : Nat) (buf : Nat → Nat) :
    ∀ bw i, (∀ k c, k < bw → c < 4 → i ≠ base0 + 4 * k + c) →
      clearRow base0 bw buf i = buf i := by
  intro bw
  induction bw with
  | zero => intro i _; rfl
  | succ n ih =>
    intro i h
    rw [clearRow_succ, write4z_eval]
    have hne : ¬ (base0 + 4 * n ≤ i ∧ i < base0 + 4 * n + 4) := by
      intro hcontra
      have hc : i - (base0 + 4 * n) < 4 := by omega
      exact h n (i - (base0 + 4 * n)) (by omega) hc (by omega)
    rw [if_neg hne]
    exact ih i (fun k c hk hc => h k c (by omega) hc)

theorem clearGlyphArea_succ (glyphOff W bw bh : Nat) (buf : Nat → Nat) :
    clearGlyphArea glyphOff W bw (bh + 1) buf =
      clearRow (glyphOff + 4 * (bh * W)) bw (clearGlyphArea glyphOff W bw bh buf) := by
  unfold clearGlyphArea
  rw [List.range_succ, List.foldl_append]
  rfl

theorem clearGlyphArea_val (glyphOff W bw : Nat) (buf : Nat → Nat) (hbw : bw ≤ W) :
    ∀ bh j k c, j < bh → k < bw → c < 4 →
      clearGlyphArea glyphOff W bw bh buf (glyphOff + 4 * (j * W) + 4 * k + c) = 0 := by
  intro bh
  induction bh with
  | zero => intro j k c hj _ _; omega
  | succ n ih =>
    intro j k c hj hk hc
    rw [clearGlyphArea_succ]
    rcases Nat.lt_succ_iff_lt_or_eq.mp hj with h | h
    · have hlt : j * W + k < n * W := row_index_lt j n k W h (by omega)
      rw [clearRow_untouched _ _ bw _ ?_]
      · exact ih j k c h hk hc
      · intro k2 c2 hk2 hc2
        omega
    · subst h
      exact clearRow_val (glyphOff + 4 * (j * W)) _ bw k c hk hc

theorem clearGlyphArea_untouched (glyphOff W bw : Nat) (buf : Nat → Nat) :
    ∀ bh i, (∀ j k c, j < bh → k < bw → c < 4 → i ≠ glyphOff + 4 * (j * W) + 4 * k + c) →
      clearGlyphArea glyphOff W bw bh buf i = buf i := by
  intro bh
  induction bh with
  | zero => intro i _; rfl
  | succ n ih =>
    intro i h
    rw [clearGlyphArea_succ]
    rw [clearRow_untouched _ _ bw i (fun k c hk hc => h n k c (by omega) hk hc)]
    exact ih i (fun j k c hj hk hc => h j k c (by omega) hk hc)

/-- The value decoded for one mono pixel (font.cc lines 465-481): the byte
fetched at `j*pitch + xskip + k/8`, tested MSB-first at bit `7 - k%8`;
a set bit yields 0xFF, a clear bit 0. -/
def monoVal (g : Glyph) (xskip j k : Nat) : Nat :=
  if Nat.testBit (g.data (j * g.pitch + xskip + k / 8) % 256) (7 - k % 8) then 255 else 0

/-- The RGB triple the decode switch of `Font::loadFace` (font.cc lines
462-512) stores for destination pixel `(j, k)`, per bitmap pixel mode. -/
def decodeVals (g : Glyph) (xskip : Nat) (j k : Nat) : Nat × Nat × Nat :=
  if g.pixel_mode = FT_PIXEL_MODE_MONO then
    (monoVal g xskip j k, monoVal g xskip j k, monoVal g xskip j k)
  else if g.pixel_mode = FT_PIXEL_MODE_GRAY then
    (g.data (j * g.pitch + xskip + k) % 256,
     g.data (j * g.pitch + xskip + k) % 256,
     g.data (j * g.pitch + xskip + k) % 256)
  else if g.pixel_mode = FT_PIXEL_MODE_LCD then
    (g.data (j * g.pitch + 3 * xskip + 3 * k) % 256,
     g.data (j * g.pitch + 3 * xskip + 3 * k + 1) % 256,
     g.data (j * g.pitch + 3 * xskip + 3 * k + 2) % 256)
  else (0, 0, 0)

/-- The buffer after the decode loops of `Font::loadFace` have run. -/
def decodeRun (g : Glyph) (xskip W writeOff bw bh : Nat) (buf : Nat → Nat) : Nat → Nat :=
  writeGrid (decodeVals g xskip) writeOff W bw bh buf

/-- The decode switch of `Font::loadFace` (font.cc lines 462-512): mono,
gray and LCD bitmaps are blitted; any other pixel mode raises the fatal
"Unhandled pixel_type" error. -/
def decodeBitmap (g : Glyph) (xskip W writeOff bw bh : Nat) (buf : Nat → Nat) :
    Except String (Nat → Nat) :=
  if g.pixel_mode = FT_PIXEL_MODE_MONO ∨ g.pixel_mode = FT_PIXEL_MODE_GRAY
      ∨ g.pixel_mode = FT_PIXEL_MODE_LCD then
    Except.ok (decodeRun g xskip W writeOff bw bh buf)
  else Except.error ("Unhandled pixel_type=" ++ toString g.pixel_mode)

/-- Embedding of the blit part of `Font::loadFace` (font.cc lines 419-512):
destination offsets `dx`, `dy`, source skip `xskip`, the clipped extents
`bw`, `bh` (with C++ unsigned subtraction), the atlas offsets, the
conditional overlay clear, and the decode switch. -/
def blitGlyph (fg : FontGeom) (g : Glyph) (apos : AtlasPos) (buf : Nat → Nat) :
    Except String (Nat → Nat) :=
  let xskip := if g.bitmap_left < 0 then (-g.bitmap_left).toNat else 0
  let dx := if 0 < g.bitmap_left then g.bitmap_left.toNat else 0
  let dy := if fg.baseline ≠ 0 ∧ g.bitmap_top < (fg.baseline : Int)
            then ((fg.baseline : Int) - g.bitmap_top).toNat else 0
  let tw := if fg.renderModeLCD then g.width / 3 else g.width
  let bh := min g.rows (usub fg.py dy)
  let bw := min tw (usub fg.px dx)
  let W := fg.nx * fg.px
  let atlas_row_offset := bytes_per_pixel * W * fg.py
  let atlas_glyph_offset := apos.y * atlas_row_offset + bytes_per_pixel * apos.x * fg.px
  let atlas_write_offset := atlas_glyph_offset + bytes_per_pixel * (W * dy + dx)
  let buf1 := if fg.overlay then clearGlyphArea atlas_glyph_offset W bw bh buf else buf
  decodeBitmap g xskip W atlas_write_offset bw bh buf1

/-- Outcome of `FT_Load_Char` plus `FT_Render_Glyph` for one code point:
either a per-glyph failure (logged and skipped by the source) or a
rasterized glyph. -/
inductive GlyphOutcome where
  | failed : GlyphOutcome
  | ok : Glyph → GlyphOutcome

/-- Embedding of the three-argument `Font::loadFace` (font.cc lines
393-513): code points above the BMP are counted and skipped, per-glyph
load/render failures leave the buffer untouched, otherwise the glyph is
blitted at `apos`.  Returns the buffer and the `loadSkipCount` increment. -/
def loadFaceAt (fg : FontGeom) (oracle : Nat → GlyphOutcome) (c : Nat) (apos : AtlasPos)
    (buf : Nat → Nat) : Except String ((Nat → Nat) × Nat) :=
  if 65535 < c then Except.ok (buf, 1)
  else
    match oracle c with
    | GlyphOutcome.failed => Except.ok (buf, 0)
    | GlyphOutcome.ok g =>
      match blitGlyph fg g apos buf with
      | Except.error e => Except.error e
      | Except.ok b => Except.ok (b, 0)

/-- The atlas position of sequence number `seq` (font.cc lines 384-386):
`atlas_row = seq / nx`, `atlas_col = seq - nx * atlas_row`. -/
def posOfSeq (nx seq : Nat) : AtlasPos :=
  ⟨seq - nx * (seq / nx), seq / nx⟩

/-- Build state of a non-overlay `Font::load` glyph loop: atlas buffer,
atlas map (in insertion order), next sequence number and skip count. -/
structure BuildSt where
  buf : Nat → Nat
  map : List (Nat × AtlasPos)
  seq : Nat
  skips : Nat

/-- Embedding of the two-argument `Font::loadFace` (font.cc lines 382-391):
the next sequential cell is assigned, the glyph blitted there, and the map
entry recorded and the sequence advanced unconditionally. -/
def loadFaceNew (fg : FontGeom) (oracle : Nat → GlyphOutcome) (c : Nat) (st : BuildSt) :
    Except String BuildSt :=
  let apos := posOfSeq fg.nx st.seq
  match loadFaceAt fg oracle c apos st.buf with
  | Except.error e => Except.error e
  | Except.ok (b, sk) =>
    Except.ok ⟨b, st.map ++ [(c, apos)], st.seq + 1, st.skips + sk⟩

/-- The glyph loop of a non-overlay `Font::load` (font.cc lines 262-282,
`overlay == false` branch): fold over the face's charcode enumeration,
loading each loadable code point. -/
def glyphLoopNew (fg : FontGeom) (wcw : Nat → Int) (dwidth : Bool)
    (oracle : Nat → GlyphOutcome) : List Nat → BuildSt → Except String BuildSt
  | [], st => Except.ok st
  | c :: cs, st =>
    if isLoadableChar wcw dwidth c then
      match loadFaceNew fg oracle c st with
      | Except.error e => Except.error e
      | Except.ok st2 => glyphLoopNew fg wcw dwidth oracle cs st2
    else glyphLoopNew fg wcw dwidth oracle cs st

/-- Build state of an overlay glyph loop: buffer and skip count (the map
is the primary's, read-only). -/
structure OvSt where
  buf : Nat → Nat
  skips : Nat

/-- The glyph loop of an overlay `Font::load` (font.cc lines 262-282,
`overlay == true` branch): fold over the OVERLAY face's own charcode
enumeration; a loadable code point is blitted only when it is found in the
primary's atlas map, at the primary's recorded position. -/
def glyphLoopOverlay (fg : FontGeom) (wcw : Nat → Int) (oracle : Nat → GlyphOutcome)
    (primMap : List (Nat × AtlasPos)) : List Nat → OvSt → Except String OvSt
  | [], st => Except.ok st
  | c :: cs, st =>
    if isLoadableChar wcw false c then
      match List.lookup c primMap with
      | some apos =>
        match loadFaceAt fg oracle c apos st.buf with
        | Except.error e => Except.error e
        | Except.ok (b, sk) =>
          glyphLoopOverlay fg wcw oracle primMap cs ⟨b, st.skips + sk⟩
      | none => glyphLoopOverlay fg wcw oracle primMap cs st
    else glyphLoopOverlay fg wcw oracle primMap cs st

/-- Embedding of a full non-overlay `Font::load` (font.cc lines 91-293)
after sizing: count loadable glyphs, plan the atlas geometry (with the
255-limit check), zero-fill the buffer (`atlasBuf.resize(bytes, 0)`), and
run the glyph loop.  Modelled from the spec: the initial sequence number is
1 (`atlas_seq` is initialized in font.h, which is not among the sources;
the source comment at font.cc line 221 states the extra glyph space
guarantees the blank glyph at cell (0,0)). -/
def primaryLoad (wcw : Nat → Int) (dwidth : Bool) (oracle : Nat → GlyphOutcome)
    (px py baseline : Nat) (renderLCD : Bool) (L : List Nat) :
    Except String (Nat × Nat × BuildSt) :=
  let numGlyphs := (L.filter (fun c => isLoadableChar wcw dwidth c)).length
  match atlasGeometry numGlyphs px py with
  | Except.error e => Except.error e
  | Except.ok (nx, ny) =>
    match glyphLoopNew ⟨px, py, baseline, nx, false, renderLCD⟩
        wcw dwidth oracle L ⟨fun _ => 0, [], 1, 0⟩ with
    | Except.error e => Except.error e
    | Except.ok st => Except.ok (nx, ny, st)

/-- Embedding of an overlay `Font::load` glyph phase: the overlay's buffer
starts as a COPY of the primary's atlas (member initializer
`atlasBuf (priFont.getAtlas ())`, font.cc line 62), and the overlay loop
runs over the overlay face's enumeration. -/
def overlayLoad (fg : FontGeom) (wcw : Nat → Int) (oracle : Nat → GlyphOutcome)
    (primMap : List (Nat × AtlasPos)) (primBuf : Nat → Nat) (Lo : List Nat) :
    Except String OvSt :=
  glyphLoopOverlay fg wcw oracle primMap Lo ⟨primBuf, 0⟩

/-- Read a byte of a buffer-valued `Except` result (0 when it is an error). -/
def bufAt (r : Except String (Nat → Nat)) (i : Nat) : Nat :=
  match r with
  | Except.ok b => b i
  | Except.error _ => 0

/-- Read a byte of an overlay build result (0 when it is an error). -/
def ovBufAt (r : Except String OvSt) (i : Nat) : Nat :=
  match r with
  | Except.ok st => st.buf i
  | Except.error _ => 0

/-- Read a byte of a primary build result (0 when it is an error). -/
def primBufAt (r : Except String (Nat × Nat × BuildSt)) (i : Nat) : Nat :=
  match r with
  | Except.ok (_, _, st) => st.buf i
  | Except.error _ => 0

/-- All-zero byte buffer (a freshly `resize`-d atlas). -/
def zeroBuf : Nat → Nat := fun _ => 0

/-- C6: the decode writes each destination pixel as an RGB triple at a
4-byte stride (the fourth byte is left to the renderer and not stored):
mono bitmaps are read 1 bit per pixel MSB-first, a set bit giving
R=G=B=0xFF and a clear bit R=G=B=0; grayscale replicates the source byte
into R, G, B; LCD copies three source bytes per pixel through unchanged;
and a bitmap of any other pixel mode makes `Font::loadFace` raise the
fatal "Unhandled pixel_type" error. -/
theorem C6_decode_modes :
    ∀ (g : Glyph) (xskip W writeOff bw bh : Nat) (buf : Nat → Nat), bw ≤ W →
      (∀ j k, j < bh → k < bw →
        ((g.pixel_mode = FT_PIXEL_MODE_MONO →
            decodeRun g xskip W writeOff bw bh buf (writeOff + 4 * (j * W) + 4 * k)
              = monoVal g xskip j k
            ∧ decodeRun g xskip W writeOff bw bh buf (writeOff + 4 * (j * W) + 4 * k + 1)
              = monoVal g xskip j k
            ∧ decodeRun g xskip W writeOff bw bh buf (writeOff + 4 * (j * W) + 4 * k + 2)
              = monoVal g xskip j k)
         ∧ (g.pixel_mode = FT_PIXEL_MODE_GRAY →
            decodeRun g xskip W writeOff bw bh buf (writeOff + 4 * (j * W) + 4 * k)
              = g.data (j * g.pitch + xskip + k) % 256
            ∧ decodeRun g xskip W writeOff bw bh buf (writeOff + 4 * (j * W) + 4 * k + 1)
              = g.data (j * g.pitch + xskip + k) % 256
            ∧ decodeRun g xskip W writeOff bw bh buf (writeOff + 4 * (j * W) + 4 * k + 2)
              = g.data (j * g.pitch + xskip + k) % 256)
         ∧ (g.pixel_mode = FT_PIXEL_MODE_LCD →
            decodeRun g xskip W writeOff bw bh buf (writeOff + 4 * (j * W) + 4 * k)
              = g.data (j * g.pitch + 3 * xskip + 3 * k) % 256
            ∧ decodeRun g xskip W writeOff bw bh buf (writeOff + 4 * (j * W) + 4 * k + 1)
              = g.data (j * g.pitch + 3 * xskip + 3 * k + 1) % 256
            ∧ decodeRun g xskip W writeOff bw bh buf (writeOff + 4 * (j * W) + 4 * k + 2)
              = g.data (j * g.pitch + 3 * xskip + 3 * k + 2) % 256)
         ∧ decodeRun g xskip W writeOff bw bh buf (writeOff + 4 * (j * W) + 4 * k + 3)
             = buf (writeOff + 4 * (j * W) + 4 * k + 3)))
      ∧ (¬(g.pixel_mode = FT_PIXEL_MODE_MONO ∨ g.pixel_mode = FT_PIXEL_MODE_GRAY
            ∨ g.pixel_mode = FT_PIXEL_MODE_LCD) →
          decodeBitmap g xskip W writeOff bw bh buf
            = Except.error ("Unhandled pixel_type=" ++ toString g.pixel_mode))
      ∧ ((g.pixel_mode = FT_PIXEL_MODE_MONO ∨ g.pixel_mode = FT_PIXEL_MODE_GRAY
            ∨ g.pixel_mode = FT_PIXEL_MODE_LCD) →
          decodeBitmap g xskip W writeOff bw bh buf
            = Except.ok (decodeRun g xskip W writeOff bw bh buf)) := by
  intro g xskip W writeOff bw bh buf hbw
  refine ⟨?_, ?_, ?_⟩
  · intro j k hj hk
    obtain ⟨h0, h1, h2⟩ := writeGrid_val (decodeVals g xskip) writeOff W buf bw hbw bh j k hj hk
    refine ⟨?_, ?_, ?_, ?_⟩
    · intro hm
      have hv : decodeVals g xskip j k
          = (monoVal g xskip j k, monoVal g xskip j k, monoVal g xskip j k) := by
        simp [decodeVals, hm]
      simp only [decodeRun]
      rw [h0, h1, h2, hv]
      exact ⟨rfl, rfl, rfl⟩
    · intro hm
      have hv : decodeVals g xskip j k
          = (g.data (j * g.pitch + xskip + k) % 256,
             g.data (j * g.pitch + xskip + k) % 256,
             g.data (j * g.pitch + xskip + k) % 256) := by
        simp [decodeVals, hm, FT_PIXEL_MODE_MONO, FT_PIXEL_MODE_GRAY]
      simp only [decodeRun]
      rw [h0, h1, h2, hv]
      exact ⟨rfl, rfl, rfl⟩
    · intro hm
      have hv : decodeVals g xskip j k
          = (g.data (j * g.pitch + 3 * xskip + 3 * k) % 256,
             g.data (j * g.pitch + 3 * xskip + 3 * k + 1) % 256,
             g.data (j * g.pitch + 3 * xskip + 3 * k + 2) % 256) := by
        simp [decodeVals, hm, FT_PIXEL_MODE_MONO, FT_PIXEL_MODE_GRAY, FT_PIXEL_MODE_LCD]
      simp only [decodeRun]
      rw [h0, h1, h2, hv]
      exact ⟨rfl, rfl, rfl⟩
    · simp only [decodeRun]
      exact writeGrid_byte3 (decodeVals g xskip) writeOff W bw bh buf j k
  · intro hbad
    simp [decodeBitmap, hbad]
  · intro hok
    simp [decodeBitmap, hok]

/-- Concrete 1x1 grayscale glyph used in the C6 instances. -/
def gC6 : Glyph := ⟨0, 0, 2, 1, 1, 1, fun _ => 123⟩

/-- Concrete glyph with unsupported pixel mode 7 (`FT_PIXEL_MODE_BGRA`)
used in the C6 instances. -/
def gC6bad : Glyph := ⟨0, 0, 7, 1, 1, 1, fun _ => 123⟩

/-- Closed instance of `C6_decode_modes`: a grayscale byte is replicated,
and an unsupported pixel mode raises the fatal error. -/
theorem C6_decode_modes_witness :
    decodeRun gC6 0 4 0 1 1 zeroBuf (0 + 4 * (0 * 4) + 4 * 0)
      = gC6.data (0 * gC6.pitch + 0 + 0) % 256
    ∧ decodeBitmap gC6bad 0 4 0 1 1 zeroBuf
      = Except.error ("Unhandled pixel_type=" ++ toString gC6bad.pixel_mode) :=
  ⟨((((C6_decode_modes gC6 0 4 0 1 1 zeroBuf (by decide)).1 0 0
      (by decide) (by decide)).2.1) rfl).1,
   (C6_decode_modes gC6bad 0 4 0 1 1 zeroBuf (by decide)).2.1 (by decide)⟩

/-- C9 (amended): the overlay-rewrite clear of `Font::loadFace` zeroes
exactly the `bw × bh` pixel block anchored at the destination CELL ORIGIN
(4 bytes per pixel), where `bw`, `bh` are the clipped extents of the NEW
glyph — it does not clear the full `px × py` cell, so cell pixels outside
that block keep their prior content. -/
theorem C9_clear_region :
    ∀ (glyphOff W bw bh : Nat) (buf : Nat → Nat), bw ≤ W →
      (∀ j k c, j < bh → k < bw → c < 4 →
        clearGlyphArea glyphOff W bw bh buf (glyphOff + 4 * (j * W) + 4 * k + c) = 0)
      ∧ (∀ i, (∀ j k c, j < bh → k < bw → c < 4 → i ≠ glyphOff + 4 * (j * W) + 4 * k + c) →
          clearGlyphArea glyphOff W bw bh buf i = buf i) := by
  intro glyphOff W bw bh buf hbw
  exact ⟨fun j k c hj hk hc => clearGlyphArea_val glyphOff W bw buf hbw bh j k c hj hk hc,
         fun i h => clearGlyphArea_untouched glyphOff W bw buf bh i h⟩

/-- Constant stale buffer used in the C9 witness. -/
def bufC9w : Nat → Nat := fun _ => 9

/-- Closed instance of `C9_clear_region`: in a 1x1 clear, byte 2 of pixel
(0,0) is zeroed and byte 12 (pixel (1,1) of the 2x2 cell) is untouched. -/
theorem C9_clear_region_witness :
    clearGlyphArea 0 4 1 1 bufC9w (0 + 4 * (0 * 4) + 4 * 0 + 2) = 0
    ∧ clearGlyphArea 0 4 1 1 bufC9w 12 = bufC9w 12 :=
  ⟨(C9_clear_region 0 4 1 1 bufC9w (by decide)).1 0 0 2 (by decide) (by decide) (by decide),
   (C9_clear_region 0 4 1 1 bufC9w (by decide)).2 12 (by
      intro j k c hj hk hc
      have hj0 : j = 0 := by omega
      have hk0 : k = 0 := by omega
      subst hj0
      subst hk0
      omega)⟩

/-- Overlay font geometry (2x2 cells, one atlas column) of the C9
counterexample. -/
def fgC9 : FontGeom := ⟨2, 2, 0, 1, true, false⟩

/-- Concrete 1x1 grayscale replacement glyph of the C9 counterexample. -/
def gC9 : Glyph := ⟨0, 0, 2, 1, 1, 1, fun _ => 7⟩

/-- Stale cell content of the C9 counterexample: byte 12, which is a byte
of pixel (1,1) inside destination cell (0,0) (cell pixels are rows 0-1 and
columns 0-1 of the 2-pixel-wide atlas), holds 170. -/
def bufC9 : Nat → Nat := fun i => if i = 12 then 170 else 0

/-- Counterexample to C9 as stated: an overlay rewrite of a 2x2 cell with a
1x1 replacement glyph clears only the 1x1 block at the cell origin, so the
stale byte 170 at cell pixel (1,1) — inside the destination cell but
outside the new glyph's block — survives the rewrite, contradicting "the
full destination cell region is zeroed before the new glyph is blitted". -/
theorem C9_counterexample :
    bufAt (blitGlyph fgC9 gC9 ⟨0, 0⟩ bufC9) 12 = 170 := by decide

/-- Primary (non-overlay) font geometry of the C4 failing input: cell size
2x2, atlas 2 columns wide. -/
def fgC4 : FontGeom := ⟨2, 2, 0, 2, false, false⟩

/-- The C4 failing glyph: a 1x1 mono bitmap (set bit) whose
`bitmap_left = 3` exceeds the cell width `px = 2`. -/
def gC4 : Glyph := ⟨3, 0, 1, 1, 1, 1, fun _ => 128⟩

/-- C4 failing-input evaluation: blitting `gC4` into cell (1,0) writes the
value 0xFF to atlas byte 20.  Byte 20 belongs to atlas pixel 5 = row 1,
column 1, i.e. it lies inside the pixel region of cell (0,0) — outside the
destination cell (1,0), whose pixel region is columns 2-3.  The unsigned
computation `px - dx` wraps (`usub 2 3 = 2^32 - 1`), so `bw` is not
clipped and the write escapes the cell, contradicting the claim that
nothing is written outside the destination cell for any `bitmap_left`. -/
theorem C4_overflow_eval :
    bufAt (blitGlyph fgC4 gC4 ⟨1, 0⟩ zeroBuf) 20 = 255 := by decide

/-- The `wcwidth` classification of the C5 failing input (all narrow). -/
def wcwC5 : Nat → Int := fun _ => 1

/-- The C5 failing glyph, identical in shape to the C4 one: 1x1 mono
bitmap with `bitmap_left = 3 > px = 2`. -/
def gC5 : Glyph := ⟨3, 0, 1, 1, 1, 1, fun _ => 128⟩

/-- Rasterization oracle of the C5 failing input: code point 65 renders to
`gC5`; 66 and 67 fail to load (left blank). -/
def oracleC5 : Nat → GlyphOutcome :=
  fun c => if c = 65 then GlyphOutcome.ok gC5 else GlyphOutcome.failed

set_option maxRecDepth 4000 in
/-- C5 failing-input evaluation: a full non-overlay build (3 loadable code
points, cell 2x2, planner yields a 2x2 atlas) assigns code point 65 to
cell (1,0) (the first sequence number is 1, so cell (0,0) is never
assigned), but the glyph's `bitmap_left = 3` makes the blit wrap past the
atlas pixel row and deposit 0xFF at byte 20 — a byte of pixel (1,1), which
lies inside the pixel region of the reserved blank cell (0,0).  The claim
(and the source comment "guarantee a blank glyph at (0,0)") requires every
byte of that region to be zero after construction. -/
theorem C5_cell00_eval :
    primBufAt (primaryLoad wcwC5 false oracleC5 2 2 0 false [65, 66, 67]) 20 = 255 := by
  decide

/-- The list of (code point, position) rasterization attempts an overlay
build performs: the overlay face's enumeration filtered to loadable code
points that are present in the primary's atlas map. -/
def overlayAttempts (wcw : Nat → Int) (primMap : List (Nat × AtlasPos)) :
    List Nat → List (Nat × AtlasPos)
  | [] => []
  | c :: cs =>
    if isLoadableChar wcw false c then
      match List.lookup c primMap with
      | some apos => (c, apos) :: overlayAttempts wcw primMap cs
      | none => overlayAttempts wcw primMap cs
    else overlayAttempts wcw primMap cs

/-- Run a list of rasterization attempts in order. -/
def runAttempts (fg : FontGeom) (oracle : Nat → GlyphOutcome) :
    List (Nat × AtlasPos) → OvSt → Except String OvSt
  | [], st => Except.ok st
  | (c, apos) :: rest, st =>
    match loadFaceAt fg oracle c apos st.buf with
    | Except.error e => Except.error e
    | Except.ok (b, sk) => runAttempts fg oracle rest ⟨b, st.skips + sk⟩

theorem glyphLoopOverlay_cons (fg : FontGeom) (wcw : Nat → Int)
    (oracle : Nat → GlyphOutcome) (primMap : List (Nat × AtlasPos))
    (c : Nat) (cs : List Nat) (st : OvSt) :
    glyphLoopOverlay fg wcw oracle primMap (c :: cs) st =
      if isLoadableChar wcw false c then
        match List.lookup c primMap with
        | some apos =>
          match loadFaceAt fg oracle c apos st.buf with
          | Except.error e => Except.error e
          | Except.ok (b, sk) => glyphLoopOverlay fg wcw oracle primMap cs ⟨b, st.skips + sk⟩
        | none => glyphLoopOverlay fg wcw oracle primMap cs st
      else glyphLoopOverlay fg wcw oracle primMap cs st := rfl

theorem overlayAttempts_cons (wcw : Nat → Int) (primMap : List (Nat × AtlasPos))
    (c : Nat) (cs : List Nat) :
    overlayAttempts wcw primMap (c :: cs) =
      if isLoadableChar wcw false c then
        match List.lookup c primMap with
        | some apos => (c, apos) :: overlayAttempts wcw primMap cs
        | none => overlayAttempts wcw primMap cs
      else overlayAttempts wcw primMap cs := rfl

/-- C1 (amended): an overlay build iterates the OVERLAY face's own
enumeration — its rasterization attempts are exactly the loadable code
points of that enumeration that appear in the primary's atlas map, each at
the primary's recorded position (first conjunct); and since the overlay's
buffer starts as a copy of the primary's atlas, a build in which every
enumerated code point fails to load or render returns the primary's buffer
unchanged — cells of code points that are absent from the overlay face or
unrenderable keep the primary's pixels, they are NOT zeroed (second
conjunct). -/
theorem C1_overlay_iteration :
    (∀ (fg : FontGeom) (wcw : Nat → Int) (oracle : Nat → GlyphOutcome)
       (primMap : List (Nat × AtlasPos)) (Lo : List Nat) (st : OvSt),
       glyphLoopOverlay fg wcw oracle primMap Lo st
         = runAttempts fg oracle (overlayAttempts wcw primMap Lo) st)
    ∧ (∀ (fg : FontGeom) (wcw : Nat → Int) (oracle : Nat → GlyphOutcome)
       (primMap : List (Nat × AtlasPos)) (Lo : List Nat) (st : OvSt),
       (∀ c, c ∈ Lo → c ≤ 65535 ∧ oracle c = GlyphOutcome.failed) →
       glyphLoopOverlay fg wcw oracle primMap Lo st = Except.ok st) := by
  constructor
  · intro fg wcw oracle primMap Lo
    induction Lo with
    | nil => intro st; rfl
    | cons c cs ih =>
      intro st
      rw [glyphLoopOverlay_cons, overlayAttempts_cons]
      by_cases hl : isLoadableChar wcw false c
      · rw [if_pos hl, if_pos hl]
        cases hfind : List.lookup c primMap with
        | none => exact ih st
        | some apos =>
          show (match loadFaceAt fg oracle c apos st.buf with
                | Except.error e => Except.error e
                | Except.ok (b, sk) =>
                  glyphLoopOverlay fg wcw oracle primMap cs ⟨b, st.skips + sk⟩)
              = (match loadFaceAt fg oracle c apos st.buf with
                | Except.error e => Except.error e
                | Except.ok (b, sk) =>
                  runAttempts fg oracle (overlayAttempts wcw primMap cs) ⟨b, st.skips + sk⟩)
          cases loadFaceAt fg oracle c apos st.buf with
          | error e => rfl
          | ok p =>
            cases p with
            | mk b sk => exact ih ⟨b, st.skips + sk⟩
      · rw [if_neg hl, if_neg hl]
        exact ih st
  · intro fg wcw oracle primMap Lo
    induction Lo with
    | nil => intro st _; rfl
    | cons c cs ih =>
      intro st h
      obtain ⟨hc, hfail⟩ := h c (by simp)
      have hrest : ∀ c2, c2 ∈ cs → c2 ≤ 65535 ∧ oracle c2 = GlyphOutcome.failed :=
        fun c2 hc2 => h c2 (by simp [hc2])
      rw [glyphLoopOverlay_cons]
      by_cases hl : isLoadableChar wcw false c
      · rw [if_pos hl]
        cases hfind : List.lookup c primMap with
        | none => exact ih st hrest
        | some apos =>
          show (match loadFaceAt fg oracle c apos st.buf with
                | Except.error e => Except.error e
                | Except.ok (b, sk) =>
                  glyphLoopOverlay fg wcw oracle primMap cs ⟨b, st.skips + sk⟩)
              = Except.ok st
          have hload : loadFaceAt fg oracle c apos st.buf = Except.ok (st.buf, 0) := by
            unfold loadFaceAt
            rw [if_neg (by omega), hfail]
          rw [hload]
          exact ih ⟨st.buf, st.skips + 0⟩ hrest
      · rw [if_neg hl]
        exact ih st hrest

/-- Overlay font geometry (2x2 cells, 2 atlas columns) of the C1 instances. -/
def fgC1 : FontGeom := ⟨2, 2, 0, 2, true, false⟩

/-- The `wcwidth` classification of the C1 instances (all narrow). -/
def wcwC1 : Nat → Int := fun _ => 1

/-- Rasterization oracle of the C1 instances: the overlay face fails to
render every code point. -/
def oracleC1 : Nat → GlyphOutcome := fun _ => GlyphOutcome.failed

/-- Primary atlas map of the C1 instances: code point 65 sits at cell (1,0). -/
def primMapC1 : List (Nat × AtlasPos) := [(65, ⟨1, 0⟩)]

/-- Primary atlas content of the C1 instances: byte 8, the first byte of
cell (1,0)'s pixel region, holds 170 (a pixel of the primary's glyph 65). -/
def primBufC1 : Nat → Nat := fun i => if i = 8 then 170 else 0

/-- Initial overlay state of the C1 instances: the overlay's buffer is the
copy of the primary's atlas taken by the `Font` overlay constructor. -/
def stC1 : OvSt := ⟨primBufC1, 0⟩

/-- Counterexample to C1 as stated: code point 65 is present in the
primary's atlas map (at cell (1,0), with nonzero primary pixels), but the
overlay face's enumeration is empty, so the overlay build never visits 65
and its cell retains the primary's pixel byte 170 — it is NOT "entirely
zeroed".  The build iterates the overlay face's enumeration, not the
primary's atlas map. -/
theorem C1_counterexample :
    ovBufAt (glyphLoopOverlay fgC1 wcwC1 oracleC1 primMapC1 [] stC1) 8 = 170 := by decide

/-- Closed instance of `C1_overlay_iteration`: the attempt-list
characterization at the C1 inputs with overlay enumeration [66], and the
unchanged-buffer consequence when every enumerated code point fails. -/
theorem C1_overlay_iteration_witness :
    glyphLoopOverlay fgC1 wcwC1 oracleC1 primMapC1 [66] stC1
      = runAttempts fgC1 oracleC1 (overlayAttempts wcwC1 primMapC1 [66]) stC1
    ∧ glyphLoopOverlay fgC1 wcwC1 oracleC1 primMapC1 [66] stC1 = Except.ok stC1 :=
  ⟨C1_overlay_iteration.1 fgC1 wcwC1 oracleC1 primMapC1 [66] stC1,
   C1_overlay_iteration.2 fgC1 wcwC1 oracleC1 primMapC1 [66] stC1 (by
      intro c hc
      simp at hc
      subst hc
      exact ⟨by omega, rfl⟩)⟩

/-- The atlas map entries a non-overlay glyph loop appends: one entry per
loadable code point of the enumeration, at consecutive sequence numbers. -/
def expectedEntries (wcw : Nat → Int) (dwidth : Bool) (nx : Nat) :
    List Nat → Nat → List (Nat × AtlasPos)
  | [], _ => []
  | c :: cs, seq =>
    if isLoadableChar wcw dwidth c then
      (c, posOfSeq nx seq) :: expectedEntries wcw dwidth nx cs (seq + 1)
    else expectedEntries wcw dwidth nx cs seq

theorem loadFaceNew_eq (fg : FontGeom) (oracle : Nat → GlyphOutcome) (c : Nat) (st : BuildSt) :
    loadFaceNew fg oracle c st =
      match loadFaceAt fg oracle c (posOfSeq fg.nx st.seq) st.buf with
      | Except.error e => Except.error e
      | Except.ok (b, sk) =>
        Except.ok ⟨b, st.map ++ [(c, posOfSeq fg.nx st.seq)], st.seq + 1, st.skips + sk⟩ := rfl

theorem glyphLoopNew_cons (fg : FontGeom) (wcw : Nat → Int) (dwidth : Bool)
    (oracle : Nat → GlyphOutcome) (c : Nat) (cs : List Nat) (st : BuildSt) :
    glyphLoopNew fg wcw dwidth oracle (c :: cs) st =
      if isLoadableChar wcw dwidth c then
        match loadFaceNew fg oracle c st with
        | Except.error e => Except.error e
        | Except.ok st2 => glyphLoopNew fg wcw dwidth oracle cs st2
      else glyphLoopNew fg wcw dwidth oracle cs st := rfl

/-- C10: in a non-overlay build, every loadable code point of the face's
enumeration receives an atlas map entry at the next sequential position,
whether or not anything was rasterized for it: the final map is the
initial map extended by exactly one entry per loadable code point at
consecutive sequence numbers (first conjunct); a code point above the BMP
is counted and skipped without touching the buffer (second conjunct), and
a code point whose load or render fails leaves the buffer untouched
(third conjunct) — in both cases the map entry is still recorded, so such
code points map to a cell rather than being absent. -/
theorem C10_map_assignment :
    (∀ (fg : FontGeom) (wcw : Nat → Int) (dwidth : Bool) (oracle : Nat → GlyphOutcome)
       (L : List Nat) (st st2 : BuildSt),
       glyphLoopNew fg wcw dwidth oracle L st = Except.ok st2 →
       st2.map = st.map ++ expectedEntries wcw dwidth fg.nx L st.seq)
    ∧ (∀ (fg : FontGeom) (oracle : Nat → GlyphOutcome) (c : Nat) (apos : AtlasPos)
        (buf : Nat → Nat), 65535 < c → loadFaceAt fg oracle c apos buf = Except.ok (buf, 1))
    ∧ (∀ (fg : FontGeom) (oracle : Nat → GlyphOutcome) (c : Nat) (apos : AtlasPos)
        (buf : Nat → Nat), c ≤ 65535 → oracle c = GlyphOutcome.failed →
        loadFaceAt fg oracle c apos buf = Except.ok (buf, 0)) := by
  refine ⟨?_, ?_, ?_⟩
  · intro fg wcw dwidth oracle L
    induction L with
    | nil =>
      intro st st2 h
      simp only [glyphLoopNew] at h
      cases h
      simp [expectedEntries]
    | cons c cs ih =>
      intro st st2 h
      rw [glyphLoopNew_cons] at h
      by_cases hl : isLoadableChar wcw dwidth c
      · rw [if_pos hl, loadFaceNew_eq] at h
        cases hload : loadFaceAt fg oracle c (posOfSeq fg.nx st.seq) st.buf with
        | error e => rw [hload] at h; cases h
        | ok p =>
          cases p with
          | mk b sk =>
            rw [hload] at h
            have h2 := ih ⟨b, st.map ++ [(c, posOfSeq fg.nx st.seq)],
                           st.seq + 1, st.skips + sk⟩ st2 h
            simp only [expectedEntries, hl, if_true]
            simp only at h2
            simp [h2]
      · rw [if_neg hl] at h
        have h2 := ih st st2 h
        simp only [expectedEntries, hl, if_false]
        exact h2
  · intro fg oracle c apos buf hc
    unfold loadFaceAt
    rw [if_pos hc]
  · intro fg oracle c apos buf hc hfail
    unfold loadFaceAt
    rw [if_neg (by omega), hfail]

/-- The `wcwidth` classification of the C10 witness (all narrow). -/
def wcwC10 : Nat → Int := fun _ => 1

/-- Rasterization oracle of the C10 witness: every load fails. -/
def oracleC10 : Nat → GlyphOutcome := fun _ => GlyphOutcome.failed

/-- Non-overlay font geometry of the C10 witness. -/
def fgC10 : FontGeom := ⟨2, 2, 0, 2, false, false⟩

/-- Initial build state of the C10 witness. -/
def stC10 : BuildSt := ⟨zeroBuf, [], 1, 0⟩

/-- Final build state of the C10 witness. -/
def stC10fin : BuildSt := ⟨zeroBuf, [(65, posOfSeq 2 1), (70000, posOfSeq 2 2)], 3, 1⟩

/-- Closed instance of `C10_map_assignment`: running the glyph loop over
the enumeration [65, 70000] (one ordinary code point whose load fails, one
above the BMP) appends a map entry for BOTH at consecutive cells, and the
skip/failure steps return the buffer unchanged. -/
theorem C10_map_assignment_witness :
    stC10fin.map = stC10.map ++ expectedEntries wcwC10 false fgC10.nx [65, 70000] stC10.seq
    ∧ loadFaceAt fgC10 oracleC10 70000 (posOfSeq 2 2) zeroBuf = Except.ok (zeroBuf, 1)
    ∧ loadFaceAt fgC10 oracleC10 65 (posOfSeq 2 1) zeroBuf = Except.ok (zeroBuf, 0) :=
  ⟨C10_map_assignment.1 fgC10 wcwC10 false oracleC10 [65, 70000] stC10 stC10fin rfl,
   C10_map_assignment.2.1 fgC10 oracleC10 70000 (posOfSeq 2 2) zeroBuf (by decide),
   C10_map_assignment.2.2 fgC10 oracleC10 65 (posOfSeq 2 1) zeroBuf (by decide) rfl⟩

/-- Result of the sizing phase (`Font::loadFixed` / `Font::loadScaled`):
the established cell size and baseline. -/
structure Sizing where
  px : Nat
  py : Nat
  baseline : Nat
deriving DecidableEq

/-- Embedding of `Font::loadScaled` (font.cc lines 363-380): target sizes
from the face's scalable metrics; a non-overlay, non-doublewidth font
adopts them, a non-overlay font recomputes the baseline; `setPixelOk`
models the `FT_Set_Pixel_Sizes` call.  No dimension validation occurs on
this path. -/
def loadScaled (overlay dwidth : Bool) (px py baseline : Nat)
    (pixelSize maw upem hgt asc : Nat) (setPixelOk : Bool) : Except String Sizing :=
  let tpx := pixelSize * maw / upem
  let tpy := tpx * hgt / maw + 1
  let px2 := if !overlay && !dwidth then tpx else px
  let py2 := if !overlay && !dwidth then tpy else py
  let baseline2 := if !overlay then tpy * asc / hgt else baseline
  if setPixelOk then Except.ok ⟨px2, py2, baseline2⟩
  else Except.error "Could not set pixel sizes"

/-- Absolute difference, the C++ `abs (pixelSize - height)`. -/
def absDiff (a b : Nat) : Nat := max a b - min a b

/-- The best-strike scan of `Font::loadFixed` (font.cc lines 297-315):
keep the first strike with strictly smallest height difference. -/
def bestStrikeGo (pixelSize : Nat) (best : Nat × Nat) (bd : Nat) :
    List (Nat × Nat) → (Nat × Nat) × Nat
  | [] => (best, bd)
  | s :: rest =>
    let d := absDiff pixelSize s.2
    if d < bd then bestStrikeGo pixelSize s d rest
    else bestStrikeGo pixelSize best bd rest

/-- Best fixed strike of a face (`none` when the face has no fixed sizes;
`Font::load` only calls `loadFixed` when `num_fixed_sizes > 0`). -/
def bestStrike (pixelSize : Nat) : List (Nat × Nat) → Option ((Nat × Nat) × Nat)
  | [] => none
  | s :: rest => some (bestStrikeGo pixelSize s (absDiff pixelSize s.2) rest)

/-- Embedding of `Font::loadFixed` (font.cc lines 295-361): pick the best
strike; fall back to `loadScaled` when its height is off by more than 1 and
the face is scalable; on the fixed path an overlay/doublewidth build
validates the strike's width and height against the established `px, py`
(fatal mismatch), while a primary build adopts them; then set pixel sizes
and (for non-overlay faces with a height metric) recompute the baseline. -/
def loadFixed (overlay dwidth : Bool) (px py baseline : Nat) (pixelSize : Nat)
    (sizes : List (Nat × Nat)) (maw upem hgt asc : Nat) (setPixelOk : Bool) :
    Except String Sizing :=
  match bestStrike pixelSize sizes with
  | none => Except.error "no fixed sizes"
  | some ((w, h), bd) =>
    if 1 < bd ∧ 0 < upem then
      loadScaled overlay dwidth px py baseline pixelSize maw upem hgt asc setPixelOk
    else if overlay || dwidth then
      if px ≠ w then Except.error "Overlay font size mismatch, expected px"
      else if py ≠ h then Except.error "Overlay font size mismatch, expected py"
      else if setPixelOk then
        Except.ok ⟨px, py, if !overlay && hgt ≠ 0 then py * asc / hgt else baseline⟩
      else Except.error "Could not set pixel sizes"
    else
      if setPixelOk then
        Except.ok ⟨w, h, if hgt ≠ 0 then h * asc / hgt else 0⟩
      else Except.error "Could not set pixel sizes"

/-- C8 (amended): on the fixed-strike path an Overlay or DoubleWidth build
validates the chosen strike's dimensions against the established `px, py`
and a mismatch raises the fatal dimension-mismatch error before any atlas
work (first conjunct); the scaled path performs NO dimension validation —
an Overlay/DoubleWidth build keeps the established `px, py` whatever the
face's scaled dimensions are (second conjunct), and never fails when
setting pixel sizes succeeds (third conjunct). -/
theorem C8_dimension_validation :
    (∀ (overlay dwidth : Bool) (px py baseline pixelSize : Nat) (sizes : List (Nat × Nat))
       (maw upem hgt asc : Nat) (setPixelOk : Bool) (w h bd : Nat),
       (overlay = true ∨ dwidth = true) →
       bestStrike pixelSize sizes = some ((w, h), bd) →
       ¬(1 < bd ∧ 0 < upem) →
       (px ≠ w ∨ py ≠ h) →
       isErr (loadFixed overlay dwidth px py baseline pixelSize sizes maw upem hgt asc
                setPixelOk) = true)
    ∧ (∀ (overlay dwidth : Bool) (px py baseline pixelSize maw upem hgt asc : Nat)
        (s : Sizing),
        (overlay = true ∨ dwidth = true) →
        loadScaled overlay dwidth px py baseline pixelSize maw upem hgt asc true
          = Except.ok s →
        s.px = px ∧ s.py = py)
    ∧ (∀ (overlay dwidth : Bool) (px py baseline pixelSize maw upem hgt asc : Nat),
        isErr (loadScaled overlay dwidth px py baseline pixelSize maw upem hgt asc true)
          = false) := by
  refine ⟨?_, ?_, ?_⟩
  · intro overlay dwidth px py baseline pixelSize sizes maw upem hgt asc setPixelOk w h bd
      hov hbs hbd hmis
    have hor : (overlay || dwidth) = true := by
      rcases hov with hov | hov <;> simp [hov]
    unfold loadFixed
    rw [hbs]
    show isErr (
      if 1 < bd ∧ 0 < upem then
        loadScaled overlay dwidth px py baseline pixelSize maw upem hgt asc setPixelOk
      else if overlay || dwidth then
        if px ≠ w then Except.error "Overlay font size mismatch, expected px"
        else if py ≠ h then Except.error "Overlay font size mismatch, expected py"
        else if setPixelOk then
          Except.ok (⟨px, py, if !overlay && hgt ≠ 0 then py * asc / hgt else baseline⟩ : Sizing)
        else Except.error "Could not set pixel sizes"
      else if setPixelOk then
        Except.ok (⟨w, h, if hgt ≠ 0 then h * asc / hgt else 0⟩ : Sizing)
      else Except.error "Could not set pixel sizes") = true
    rw [if_neg hbd, if_pos hor]
    rcases hmis with hmis | hmis
    · rw [if_pos hmis]
      rfl
    · by_cases hpx : px ≠ w
      · rw [if_pos hpx]
        rfl
      · rw [if_neg hpx, if_pos hmis]
        rfl
  · intro overlay dwidth px py baseline pixelSize maw upem hgt asc s hov h
    have hor : (!overlay && !dwidth) = false := by
      rcases hov with hov | hov <;> simp [hov]
    unfold loadScaled at h
    rw [if_pos rfl] at h
    simp only [hor, if_false, Bool.false_eq_true] at h
    cases h
    exact ⟨rfl, rfl⟩
  · intro overlay dwidth px py baseline pixelSize maw upem hgt asc
    unfold loadScaled
    rw [if_pos rfl]
    rfl

/-- Counterexample to C8 as stated: a scaled-path Overlay build whose
face-derived dimensions (tpx = 5, tpy = 21) differ from the established
`px = py = 100` succeeds without any dimension-mismatch error —
`Font::loadScaled` validates nothing.  (Inputs: pixelSize 10,
max_advance_width 10, units_per_EM 20, height 40, ascender 30.) -/
theorem C8_counterexample :
    loadScaled true false 100 100 7 10 10 20 40 30 true = Except.ok ⟨100, 100, 7⟩ := rfl

/-- Closed instance of `C8_dimension_validation`: a DoubleWidth fixed-path
build whose strike (8, 16) mismatches `px = 10` fails fatally, and a
scaled-path Overlay build keeps the established cell size. -/
theorem C8_dimension_validation_witness :
    isErr (loadFixed false true 10 16 0 16 [(8, 16)] 1 1 1 1 true) = true
    ∧ (⟨100, 100, 7⟩ : Sizing).px = 100 ∧ (⟨100, 100, 7⟩ : Sizing).py = 100 :=
  ⟨C8_dimension_validation.1 false true 10 16 0 16 [(8, 16)] 1 1 1 1 true 8 16 0
      (Or.inr rfl) rfl (by omega) (Or.inl (by omega)),
   C8_dimension_validation.2.1 true false 100 100 7 10 10 20 40 30 ⟨100, 100, 7⟩
      (Or.inl rfl) rfl⟩

/-- Result of a Fontpack build: the mandatory Regular font and the four
optional variants (fonts are abstracted to identifiers). -/
structure FontpackResult where
  regular : Nat
  italic : Option Nat
  boldItalic : Option Nat
  bold : Option Nat
  doubleWidth : Option Nat
deriving DecidableEq

/-- One optional style-variant step of `Fontpack::Fontpack` (fontpack.cc):
if the fontconfig match failed, log and leave the slot empty (ok none);
if a match exists, construct the Font — an exception from the constructor
propagates (there is no try/catch in the source). -/
def buildVariant (matched : Option Nat) (build : Nat → Except String Nat) :
    Except String (Option Nat) :=
  match matched with
  | none => Except.ok none
  | some m =>
    match build m with
    | Except.error e => Except.error e
    | Except.ok f => Except.ok (some f)

/-- The double-width tail of `Fontpack::Fontpack`: nothing happens without
a configured double-width name; an unparsable name is non-fatal (`return`);
a missing match is non-fatal; a matched build runs (and may propagate). -/
def fontpackDw (reg : Nat) (it bi bd : Option Nat)
    (haveDwName dwParseOk : Bool) (matchDW : Option Nat)
    (buildDW : Nat → Except String Nat) : Except String FontpackResult :=
  if !haveDwName then Except.ok ⟨reg, it, bi, bd, none⟩
  else if !dwParseOk then Except.ok ⟨reg, it, bi, bd, none⟩
  else
    match buildVariant matchDW buildDW with
    | Except.error e => Except.error e
    | Except.ok dw => Except.ok ⟨reg, it, bi, bd, dw⟩

/-- The variant-building tail of `Fontpack::Fontpack`, run once the
Regular font has been built. -/
def fontpackVariants (reg : Nat)
    (matchItalic matchBoldItalic matchBold : Option Nat)
    (buildOv : Nat → Except String Nat)
    (haveDwName dwParseOk : Bool) (matchDW : Option Nat)
    (buildDW : Nat → Except String Nat) : Except String FontpackResult :=
  match buildVariant matchItalic buildOv with
  | Except.error e => Except.error e
  | Except.ok it =>
    match buildVariant matchBoldItalic buildOv with
    | Except.error e => Except.error e
    | Except.ok bi =>
      match buildVariant matchBold buildOv with
      | Except.error e => Except.error e
      | Except.ok bd => fontpackDw reg it bi bd haveDwName dwParseOk matchDW buildDW

/-- Embedding of `Fontpack::Fontpack` (fontpack.cc lines 556-656):
fontconfig init and regular-name parse failures are fatal; a missing
regular match is fatal; the Regular build runs first; then the Italic,
BoldItalic and Bold variants (in source order) and, when a double-width
name is configured and parses, the DoubleWidth variant.  Matches are
inputs (`matchX : Option Nat`), builds are oracles returning
`Except String Nat`. -/
def fontpackBuild (configOk parseOk : Bool)
    (matchReg : Option Nat) (buildReg : Nat → Except String Nat)
    (matchItalic matchBoldItalic matchBold : Option Nat)
    (buildOv : Nat → Except String Nat)
    (haveDwName dwParseOk : Bool) (matchDW : Option Nat)
    (buildDW : Nat → Except String Nat) : Except String FontpackResult :=
  if !configOk then Except.error "Cannot initialize fontconfig library"
  else if !parseOk then Except.error "Cannot parse font reference"
  else
    match matchReg with
    | none => Except.error "Cannot locate regular font file"
    | some mr =>
      match buildReg mr with
      | Except.error e => Except.error e
      | Except.ok reg =>
        fontpackVariants reg matchItalic matchBoldItalic matchBold buildOv
          haveDwName dwParseOk matchDW buildDW

/-- C7 (amended): when the Regular font builds, RESOLUTION failures of
every optional variant (no fontconfig match for a style, unparsable
double-width name) are non-fatal: the Fontpack constructor returns with
all those slots empty and Regular intact (first conjunct).  But a failure
raised INSIDE a matched variant's Font construction propagates out of the
constructor and aborts the whole Fontpack (second conjunct) — the source
has no try/catch around the variant builds. -/
theorem C7_fontpack_nonfatal_resolution :
    (∀ (matchReg : Option Nat) (buildReg : Nat → Except String Nat)
       (buildOv buildDW : Nat → Except String Nat) (mr reg : Nat),
       matchReg = some mr → buildReg mr = Except.ok reg →
       fontpackBuild true true matchReg buildReg none none none buildOv true false none buildDW
         = Except.ok ⟨reg, none, none, none, none⟩)
    ∧ (∀ (matchReg : Option Nat) (buildReg : Nat → Except String Nat)
        (buildOv buildDW : Nat → Except String Nat) (mr reg mi : Nat) (e : String),
        matchReg = some mr → buildReg mr = Except.ok reg →
        buildOv mi = Except.error e →
        fontpackBuild true true matchReg buildReg (some mi) none none buildOv false true none
          buildDW = Except.error e) := by
  constructor
  · intro matchReg buildReg buildOv buildDW mr reg hm hb
    subst hm
    show (match buildReg mr with
          | Except.error e => Except.error e
          | Except.ok reg2 =>
            fontpackVariants reg2 none none none buildOv true false none buildDW)
        = Except.ok (⟨reg, none, none, none, none⟩ : FontpackResult)
    rw [hb]
    rfl
  · intro matchReg buildReg buildOv buildDW mr reg mi e hm hb hfail
    subst hm
    have hv : buildVariant (some mi) buildOv = Except.error e := by
      show (match buildOv mi with
            | Except.error e2 => Except.error e2
            | Except.ok f => Except.ok (some f)) = Except.error e
      rw [hfail]
    show (match buildReg mr with
          | Except.error e2 => Except.error e2
          | Except.ok reg2 =>
            fontpackVariants reg2 (some mi) none none buildOv false true none buildDW)
        = Except.error e
    rw [hb]
    unfold fontpackVariants
    rw [hv]

/-- Regular-build oracle of the C7 instances. -/
def buildRegC7 : Nat → Except String Nat := fun _ => Except.ok 0

/-- Overlay-build oracle of the C7 counterexample: the matched italic
face's Font constructor throws (e.g. an overlay dimension mismatch). -/
def buildOvC7 : Nat → Except String Nat := fun _ => Except.error "Overlay font size mismatch"

/-- Counterexample to C7 as stated: the italic variant RESOLVES (a match
exists) but its Font construction fails; the failure propagates and the
whole Fontpack constructor fails, even though Regular built fine — the
claim said a failure raised inside a variant's Font construction is
non-fatal and leaves only that slot empty. -/
theorem C7_counterexample :
    fontpackBuild true true (some 1) buildRegC7 (some 2) none none buildOvC7 false true none
      buildOvC7 = Except.error "Overlay font size mismatch" := rfl

/-- Closed instance of `C7_fontpack_nonfatal_resolution`: all four variant
resolutions fail, the Fontpack still builds with Regular intact; and a
variant whose construction throws aborts the Fontpack. -/
theorem C7_fontpack_nonfatal_resolution_witness :
    fontpackBuild true true (some 1) buildRegC7 none none none buildOvC7 true false none
      buildOvC7 = Except.ok ⟨0, none, none, none, none⟩
    ∧ fontpackBuild true true (some 1) buildRegC7 (some 2) none none buildOvC7 false true none
      buildOvC7 = Except.error "Overlay font size mismatch" :=
  ⟨C7_fontpack_nonfatal_resolution.1 (some 1) buildRegC7 buildOvC7 buildOvC7 1 0 rfl rfl,
   C7_fontpack_nonfatal_resolution.2 (some 1) buildRegC7 buildOvC7 buildOvC7 1 0 2
      "Overlay font size mismatch" rfl rfl rfl⟩
